import Mathlib

set_option maxHeartbeats 1000000

/-!
Verification of `clinical_assistant.py`.

The script orchestrates three external collaborators: the OpenFDA drug-label
search API (plain HTTP), the local filesystem, and the OpenAI assistant
service (assistants, files, threads, messages, runs).  The script's own
functions — `get_drug_info`, `submit_message`, `get_response`,
`create_thread_and_run`, `pretty_print`, `wait_on_run`, `make_assistant`,
`ask_assistant` — are embedded below directly from the source.  The external
collaborators are modelled as explicit state machines following the
documented interfaces (an HTTP environment, a filesystem map, and an
assistant-service state with threads holding append-only ordered messages).

Python values that flow through `json` (the fetch result, the packaged
artifact) are modelled by a JSON value universe `Json`, together with an
executable serializer `dumpJson` mirroring `json.dump` (default separators,
escaping of quote and backslash; numbers restricted to integers) and an
executable decoder `jsonParse` for which the serialize/deserialize
round-trip is proved.
-/

/-! ## JSON values -/

mutual

inductive Json where
  | null : Json
  | bool : Bool → Json
  | num : Int → Json
  | str : String → Json
  | arr : JsonList → Json
  | obj : JsonObj → Json
deriving DecidableEq

inductive JsonList where
  | nil : JsonList
  | cons : Json → JsonList → JsonList
deriving DecidableEq

inductive JsonObj where
  | onil : JsonObj
  | ocons : String → Json → JsonObj → JsonObj
deriving DecidableEq

end

mutual

/-- Structural size of a JSON value; used to bound parser fuel. -/
def sizeJ : Json → Nat
  | .null => 1
  | .bool _ => 1
  | .num _ => 1
  | .str _ => 1
  | .arr l => sizeL l + 1
  | .obj o => sizeO o + 1

def sizeL : JsonList → Nat
  | .nil => 0
  | .cons j l => sizeJ j + sizeL l + 1

def sizeO : JsonObj → Nat
  | .onil => 0
  | .ocons _ v o => sizeJ v + sizeO o + 1

end

/-! ## Serializer (model of Python `json.dump` with default separators) -/

/-- Escape a single character the way `json.dump` escapes quote and
backslash. -/
def escChar (c : Char) : List Char :=
  if c = '"' ∨ c = '\\' then ['\\', c] else [c]

def escList : List Char → List Char
  | [] => []
  | c :: cs => escChar c ++ escList cs

/-- The decimal digit character for `d < 10`. -/
def digitChar : Nat → Char
  | 0 => '0'
  | 1 => '1'
  | 2 => '2'
  | 3 => '3'
  | 4 => '4'
  | 5 => '5'
  | 6 => '6'
  | 7 => '7'
  | 8 => '8'
  | _ => '9'

/-- Decimal rendering of a natural number, most significant digit first. -/
def natDigits (n : Nat) : List Char :=
  if _h : n < 10 then [digitChar n]
  else natDigits (n / 10) ++ [digitChar (n % 10)]
decreasing_by exact Nat.div_lt_self (by omega) (by omega)

/-- Decimal rendering of an integer, as Python renders `int`. -/
def intChars (n : Int) : List Char :=
  if n < 0 then '-' :: natDigits n.natAbs else natDigits n.natAbs

mutual

/-- Serialization of a JSON value to characters, mirroring `json.dump` with
the default separators `", "` and `": "`. -/
def dumpJ : Json → List Char
  | .num n => intChars n
  | .str s => '"' :: (escList s.data ++ ['"'])
  | .bool b => if b then ['t', 'r', 'u', 'e'] else ['f', 'a', 'l', 's', 'e']
  | .null => ['n', 'u', 'l', 'l']
  | .arr .nil => ['[', ']']
  | .arr (.cons j l) => '[' :: (dumpJ j ++ dumpL l ++ [']'])
  | .obj .onil => ['\x7b', '\x7d']
  | .obj (.ocons k v o) =>
      '\x7b' :: '"' :: (escList k.data ++ '"' :: ':' :: ' '
        :: (dumpJ v ++ dumpO o ++ ['\x7d']))

/-- Serialization of the items of a (non-first) array tail: each item is
preceded by the `", "` separator. -/
def dumpL : JsonList → List Char
  | .nil => []
  | .cons j l => ',' :: ' ' :: (dumpJ j ++ dumpL l)

/-- Serialization of the fields of a (non-first) object tail. -/
def dumpO : JsonObj → List Char
  | .onil => []
  | .ocons k v o =>
      ',' :: ' ' :: '"' :: (escList k.data ++ '"' :: ':' :: ' '
        :: (dumpJ v ++ dumpO o))

end

/-- Model of `json.dump` as a string. -/
def dumpJson (j : Json) : String := String.mk (dumpJ j)

/-! ## Decoder (model of `json.load` / `json.loads`) -/

/-- Body of a string literal: characters until the closing quote,
unescaping `\"` and `\\`. -/
def parseStrBody : List Char → Option (List Char × List Char)
  | [] => none
  | c :: rest =>
    if c = '"' then some ([], rest)
    else if c = '\\' then
      match rest with
      | [] => none
      | d :: rest2 =>
        if d = '"' ∨ d = '\\' then
          match parseStrBody rest2 with
          | none => none
          | some (s, r) => some (d :: s, r)
        else none
    else
      match parseStrBody rest with
      | none => none
      | some (s, r) => some (c :: s, r)

/-- Consume a maximal run of decimal digits, accumulating their value. -/
def parseDigits : List Char → Nat → Nat × List Char
  | [], acc => (acc, [])
  | c :: r, acc =>
    if c.isDigit then parseDigits r (acc * 10 + (c.toNat - 48)) else (acc, c :: r)

/-- Parse a non-empty run of decimal digits. -/
def parseNatNum : List Char → Option (Nat × List Char)
  | [] => none
  | c :: r => if c.isDigit then some (parseDigits (c :: r) 0) else none

/-- Parse an integer literal with optional leading minus sign. -/
def parseNum : List Char → Option (Int × List Char)
  | [] => none
  | c :: r =>
    if c = '-' then
      match parseNatNum r with
      | none => none
      | some (n, r2) => some (-(n : Int), r2)
    else
      match parseNatNum (c :: r) with
      | none => none
      | some (n, r2) => some ((n : Int), r2)

/-- Match a literal character sequence and return the remainder. -/
def stripLit : List Char → List Char → Option (List Char)
  | [], cs => some cs
  | _ :: _, [] => none
  | l :: ls, c :: cs => if c = l then stripLit ls cs else none

mutual

/-- Recursive-descent JSON value decoder with explicit fuel. -/
def parseJ : Nat → List Char → Option (Json × List Char)
  | 0, _ => none
  | _ + 1, [] => none
  | fuel + 1, c :: r =>
    if c = '-' ∨ c.isDigit then
      match parseNum (c :: r) with
      | none => none
      | some (n, r2) => some (.num n, r2)
    else if c = 'n' then
      match stripLit ['u', 'l', 'l'] r with
      | none => none
      | some r2 => some (.null, r2)
    else if c = 't' then
      match stripLit ['r', 'u', 'e'] r with
      | none => none
      | some r2 => some (.bool true, r2)
    else if c = 'f' then
      match stripLit ['a', 'l', 's', 'e'] r with
      | none => none
      | some r2 => some (.bool false, r2)
    else if c = '"' then
      match parseStrBody r with
      | none => none
      | some (s, r2) => some (.str (String.mk s), r2)
    else if c = '[' then
      match r with
      | [] => none
      | d :: r1 =>
        if d = ']' then some (.arr .nil, r1)
        else
          match parseJ fuel (d :: r1) with
          | none => none
          | some (j, r2) =>
            match parseItems fuel r2 with
            | none => none
            | some (l, r3) => some (.arr (.cons j l), r3)
    else if c = '\x7b' then
      match r with
      | [] => none
      | d :: r1 =>
        if d = '\x7d' then some (.obj .onil, r1)
        else if d = '"' then
          match parseStrBody r1 with
          | none => none
          | some (k, r2) =>
            match r2 with
            | [] => none
            | c1 :: r3 =>
              if c1 = ':' then
                match r3 with
                | [] => none
                | c2 :: r4 =>
                  if c2 = ' ' then
                    match parseJ fuel r4 with
                    | none => none
                    | some (v, r5) =>
                      match parseFields fuel r5 with
                      | none => none
                      | some (o, r6) =>
                        some (.obj (.ocons (String.mk k) v o), r6)
                  else none
              else none
        else none
    else none

/-- Decoder for the tail of an array: either the closing bracket or a
`", "` separator followed by an item. -/
def parseItems : Nat → List Char → Option (JsonList × List Char)
  | 0, _ => none
  | _ + 1, [] => none
  | fuel + 1, c :: r =>
    if c = ']' then some (.nil, r)
    else if c = ',' then
      match r with
      | [] => none
      | d :: r1 =>
        if d = ' ' then
          match parseJ fuel r1 with
          | none => none
          | some (j, r2) =>
            match parseItems fuel r2 with
            | none => none
            | some (l, r3) => some (.cons j l, r3)
        else none
    else none

/-- Decoder for the tail of an object: either the closing brace or a
`", "` separator followed by a key/value pair. -/
def parseFields : Nat → List Char → Option (JsonObj × List Char)
  | 0, _ => none
  | _ + 1, [] => none
  | fuel + 1, c :: r =>
    if c = '\x7d' then some (.onil, r)
    else if c = ',' then
      match r with
      | [] => none
      | d :: r1 =>
        if d = ' ' then
          match r1 with
          | [] => none
          | e :: r2 =>
            if e = '"' then
              match parseStrBody r2 with
              | none => none
              | some (k, r3) =>
                match r3 with
                | [] => none
                | c1 :: r4 =>
                  if c1 = ':' then
                    match r4 with
                    | [] => none
                    | c2 :: r5 =>
                      if c2 = ' ' then
                        match parseJ fuel r5 with
                        | none => none
                        | some (v, r6) =>
                          match parseFields fuel r6 with
                          | none => none
                          | some (o, r7) => some (.ocons (String.mk k) v o, r7)
                      else none
                  else none
            else none
        else none
    else none

end

/-- Model of `json.load`: decode a whole string, requiring the entire
input to be consumed. -/
def jsonParse (s : String) : Option Json :=
  match parseJ (s.length + 1) s.data with
  | some (j, []) => some j
  | _ => none

/-- Does the input start with a decimal digit?  The decoder for numbers is
greedy, so the serialize/decode round-trip lemmas require the trailing
context not to start with a digit. -/
def headDigit : List Char → Bool
  | [] => false
  | c :: _ => c.isDigit

/-! ## HTTP environment and the Data Fetcher (`get_drug_info`) -/

/-- A synchronous HTTP GET response: status code and raw body.  The
environment is a pure map from request URL to response. -/
structure HttpResponse where
  status_code : Nat
  text : String
deriving DecidableEq, Repr

/-- Result of `get_drug_info`: the Python return value (a JSON-shaped
value; `none` models an exception raised while decoding the body), plus
the list of HTTP requests issued during the call. -/
structure FetchOut where
  result : Option Json
  requests : List String
deriving DecidableEq

/-- Python `f"{x}"` applied to `os.getenv`'s optional result: `None`
renders as the string `"None"`. -/
def pystr : Option String → String
  | none => "None"
  | some s => s

/-- The request URL built by `get_drug_info`:
`f"\x7bbase_url\x7d?search=\x7bquery\x7d&limit=\x7blimit\x7d&api_key=\x7bapi_key\x7d"`. -/
def request_url (env : String → Option String) (indication : String) (limit : Nat) : String :=
  "https://api.fda.gov/drug/label.json" ++ "?search="
    ++ ("indications_and_usage:" ++ indication)
    ++ "&limit=" ++ toString limit
    ++ "&api_key=" ++ pystr (env "OPENFDA_API_KEY")

/-- Embedding of `get_drug_info` (src/clinical_assistant.py, lines 12-29):
issue one GET for the filtered query; on HTTP 200 return the parsed JSON
body, otherwise return the string
`f"Error: \x7bresponse.status_code\x7d - \x7bresponse.text\x7d"` through the same
channel.  `env` models `os.getenv`, `http` models `requests.get`. -/
def get_drug_info (http : String → HttpResponse) (env : String → Option String)
    (indication : String) (limit : Nat := 10) : FetchOut :=
  let url := request_url env indication limit
  let response := http url
  if response.status_code = 200 then
    ⟨jsonParse response.text, [url]⟩
  else
    ⟨some (.str ("Error: " ++ toString response.status_code ++ " - " ++ response.text)), [url]⟩

/-! ## Filesystem and assistant-service state (for `make_assistant`) -/

/-- The local filesystem as a map from path to file content. -/
def fsWrite (fs : String → Option String) (path content : String) : String → Option String :=
  fun p => if p = path then some content else fs p

/-- A remote assistant entity as configured by this script. -/
structure Assistant where
  id : Nat
  name : String
  instructions : String
  model : String
  tools : List String
  file_ids : List Nat
deriving DecidableEq, Repr

/-- Modelled from the spec: the assistant service's provisioning state —
a registry of assistants and uploaded files, with fresh-id counters.
(The OpenAI backend itself is external to the repository; only the
operations the script consumes are modelled: create assistant, upload
file, update assistant.) -/
structure AsstService where
  nextAssistantId : Nat
  assistants : List (Nat × Assistant)
  nextFileId : Nat
  files : List (Nat × String)
deriving DecidableEq, Repr

/-- Modelled from the spec: `client.beta.assistants.create` returns a fresh
assistant with the given configuration and no tools or files attached. -/
def assistants_create (svc : AsstService) (name instructions mdl : String) :
    Assistant × AsstService :=
  let a : Assistant := ⟨svc.nextAssistantId, name, instructions, mdl, [], []⟩
  (a, { svc with nextAssistantId := svc.nextAssistantId + 1,
                 assistants := (a.id, a) :: svc.assistants })

/-- Modelled from the spec: `client.files.create` uploads the given content
and returns a fresh opaque remote file identifier. -/
def files_create (svc : AsstService) (content : String) : Nat × AsstService :=
  (svc.nextFileId, { svc with nextFileId := svc.nextFileId + 1,
                              files := (svc.nextFileId, content) :: svc.files })

def lookupAssistant : List (Nat × Assistant) → Nat → Option Assistant
  | [], _ => none
  | (i, a) :: rest, aid => if i = aid then some a else lookupAssistant rest aid

def setAssistant (aid : Nat) (a : Assistant) :
    List (Nat × Assistant) → List (Nat × Assistant)
  | [] => []
  | (i, b) :: rest =>
    if i = aid then (i, a) :: rest else (i, b) :: setAssistant aid a rest

/-- Modelled from the spec: `client.beta.assistants.update` replaces the
tool set and attached file ids of an existing assistant (`none` models the
remote error on an unknown id). -/
def assistants_update (svc : AsstService) (aid : Nat)
    (tools : List String) (file_ids : List Nat) : Option (Assistant × AsstService) :=
  match lookupAssistant svc.assistants aid with
  | none => none
  | some a =>
    let a2 := { a with tools := tools, file_ids := file_ids }
    some (a2, { svc with assistants := setAssistant aid a2 svc.assistants })

/-- Result of `make_assistant`: the provisioned assistant, the filesystem
and service states after the call, and the list of assistant-service
operations issued (in order). -/
structure MakeOut where
  assistant : Assistant
  fs : String → Option String
  svc : AsstService
  oplog : List String

/-- Embedding of `make_assistant` (src/clinical_assistant.py, lines 103-134):
fetch, serialize to `data/dataset.json` (mode `"w"`, overwriting), create a
fresh client, create the assistant with the fixed instruction and model,
upload the artifact, and update the assistant with the two tools and the
uploaded file id.  `none` models an uncaught exception. -/
def make_assistant (http : String → HttpResponse) (env : String → Option String)
    (indication : String) (fs : String → Option String) (svc : AsstService) :
    Option MakeOut :=
  let fetched := get_drug_info http env indication 10
  match fetched.result with
  | none => none
  | some results =>
    let fs1 := fsWrite fs "data/dataset.json" (dumpJson results)
    let (assistant, svc1) := assistants_create svc
      "Clinical Data Assistant medium article"
      "Answer only using the file(s) provided."
      "gpt-4-1106-preview"
    match fs1 "data/dataset.json" with
    | none => none
    | some content =>
      let (fileId, svc2) := files_create svc1 content
      match assistants_update svc2 assistant.id
          ["retrieval", "code_interpreter"] [fileId] with
      | none => none
      | some (assistant2, svc3) =>
        some ⟨assistant2, fs1, svc3,
          ["assistants.create", "files.create", "assistants.update"]⟩

/-- Content of the packaged artifact, if `make_assistant` returned. -/
def artifactAt (r : Option MakeOut) : Option String :=
  match r with
  | none => none
  | some o => o.fs "data/dataset.json"

/-- The provisioned assistant, if `make_assistant` returned. -/
def assistantOf (r : Option MakeOut) : Option Assistant :=
  match r with
  | none => none
  | some o => some o.assistant

/-! ## Conversation service (threads, messages, runs) -/

/-- A message: role, content segments (each segment's text value), and the
service-assigned creation time. -/
structure Message where
  role : String
  content : List String
  created_at : Nat
deriving DecidableEq, Repr

structure Thread where
  id : Nat
deriving DecidableEq, Repr

/-- A run object as seen by the client: identifiers plus current status
string (the script compares it against `"queued"` / `"in_progress"`). -/
structure RunObj where
  id : Nat
  thread_id : Nat
  assistant_id : Nat
  status : String
deriving DecidableEq, Repr

/-- Modelled from the spec: the conversation side of the assistant service —
threads hold append-only ordered message lists; a logical clock assigns
strictly increasing `created_at` stamps. -/
structure Service where
  threads : List (Nat × List Message)
  nextThreadId : Nat
  nextRunId : Nat
  clock : Nat
deriving DecidableEq, Repr

/-- A log entry: which client object issued the operation, and its name. -/
abbrev LogE := Nat × String

def lookupMsgs : List (Nat × List Message) → Nat → List Message
  | [], _ => []
  | (t, ms) :: rest, tid => if t = tid then ms else lookupMsgs rest tid

def hasThread : List (Nat × List Message) → Nat → Bool
  | [], _ => false
  | (t, _) :: rest, tid => if t = tid then true else hasThread rest tid

def appendMsg (tid : Nat) (m : Message) :
    List (Nat × List Message) → List (Nat × List Message)
  | [] => []
  | (t, ms) :: rest =>
    if t = tid then (t, ms ++ [m]) :: rest else (t, ms) :: appendMsg tid m rest

/-- Modelled from the spec: `client.beta.threads.create` opens a fresh,
empty conversation context. -/
def threads_create (client : Nat) (s : Service) : Thread × Service × List LogE :=
  (⟨s.nextThreadId⟩,
   { s with threads := (s.nextThreadId, []) :: s.threads,
            nextThreadId := s.nextThreadId + 1 },
   [(client, "threads.create")])

/-- Modelled from the spec: appending a message to a thread stamps it with
the current clock (messages are append-only within a thread). -/
def svcAppend (s : Service) (tid : Nat) (role : String) (content : List String) : Service :=
  { s with threads := appendMsg tid ⟨role, content, s.clock⟩ s.threads,
           clock := s.clock + 1 }

/-- Modelled from the spec: `client.beta.threads.messages.create`. -/
def messages_create (client : Nat) (s : Service) (tid : Nat)
    (role : String) (content : List String) : Service × List LogE :=
  (svcAppend s tid role content, [(client, "messages.create")])

/-- Modelled from the spec: `client.beta.threads.runs.create` starts an
asynchronous job; its initial status is supplied by the environment. -/
def runs_create (client : Nat) (s : Service) (tid aid : Nat) (initStatus : String) :
    RunObj × Service × List LogE :=
  (⟨s.nextRunId, tid, aid, initStatus⟩,
   { s with nextRunId := s.nextRunId + 1 },
   [(client, "runs.create")])

/-- Modelled from the spec: `client.beta.threads.messages.list` with
`order="asc"` returns the thread's messages in ascending creation order
(the stored order, since threads are append-only and the clock increases). -/
def messages_list (client : Nat) (s : Service) (tid : Nat) :
    List Message × List LogE :=
  (lookupMsgs s.threads tid, [(client, "messages.list")])

/-! ## Embedded source functions: the Conversation Driver and Presenter -/

/-- Embedding of `submit_message` (lines 32-47): create the user message on
the thread, then create a run — both through the module-level `client`
(the `moduleClient` argument models the global binding). -/
def submit_message (moduleClient : Nat) (assistant_id : Nat) (thread : Thread)
    (user_message : String) (initStatus : String) (s : Service) :
    RunObj × Service × List LogE :=
  let (s1, lg1) := messages_create moduleClient s thread.id "user" [user_message]
  let (run, s2, lg2) := runs_create moduleClient s1 thread.id assistant_id initStatus
  (run, s2, lg1 ++ lg2)

/-- Embedding of `get_response` (lines 50-57): list all messages of the
thread in ascending order, through the module-level `client`. -/
def get_response (moduleClient : Nat) (thread : Thread) (s : Service) :
    List Message × List LogE :=
  messages_list moduleClient s thread.id

/-- Embedding of `create_thread_and_run` (lines 60-71): the thread is
created through the *parameter* `client`; the message and run are created
by `submit_message`, which uses the module-level client. -/
def create_thread_and_run (moduleClient : Nat) (assistant_id : Nat) (client : Nat)
    (user_input : String) (initStatus : String) (s : Service) :
    (Thread × RunObj) × Service × List LogE :=
  let (thread, s1, lg1) := threads_create client s
  let (run, s2, lg2) := submit_message moduleClient assistant_id thread user_input initStatus s1
  ((thread, run), s2, lg1 ++ lg2)

/-- Rendering of one message: `f"\x7bm.role\x7d: \x7bm.content[0].text.value\x7d"`.
`none` models the `IndexError` raised by the unguarded `m.content[0]` on an
empty content sequence. -/
def render_line (m : Message) : Option String :=
  match m.content with
  | [] => none
  | t :: _ => some (m.role ++ ": " ++ t)

def render_lines : List Message → Option (List String)
  | [] => some []
  | m :: ms =>
    match render_line m with
    | none => none
    | some l =>
      match render_lines ms with
      | none => none
      | some ls => some (l :: ls)

/-- Embedding of `pretty_print` (lines 74-83): the printed lines are the
header, one line per message, and a trailing blank line; `none` models the
raise on a message with empty content. -/
def pretty_print (messages : List Message) : Option (List String) :=
  match render_lines messages with
  | none => none
  | some ls => some ("# Messages" :: ls ++ [""])

/-- Embedding of `wait_on_run` (lines 86-100): while the run status is in
`["queued", "in_progress"]`, re-fetch the run (status supplied by the
environment `statusAt` at the k-th retrieve) and sleep 500 ms, then return
the run.  Explicit `fuel` bounds the observation: `none` means the loop has
not returned within `fuel` iterations.  The result carries the returned
run, the total retrieve count, the total milliseconds slept, and the log of
operations (all issued through the module-level client). -/
def wait_on_run (moduleClient : Nat) (statusAt : Nat → String) :
    Nat → RunObj → Nat → Nat → Option (RunObj × Nat × Nat × List LogE)
  | 0, run, k, slept =>
    if run.status ∈ ["queued", "in_progress"] then none
    else some (run, k, slept, [])
  | fuel + 1, run, k, slept =>
    if run.status ∈ ["queued", "in_progress"] then
      match wait_on_run moduleClient statusAt fuel
          { run with status := statusAt k } (k + 1) (slept + 500) with
      | none => none
      | some (r, k2, sl2, lg) =>
        some (r, k2, sl2, (moduleClient, "runs.retrieve") :: lg)
    else some (run, k, slept, [])

/-- The remote-job environment for one conversation: the run's initial
status, the status reported at each retrieve, and the assistant messages
the job appends to the thread. -/
structure AskEnv where
  initStatus : String
  statusAt : Nat → String
  jobOutputs : List (List String)

/-- Modelled from the spec: the remote job appends its assistant messages
to the thread (append-only, clock-stamped). -/
def applyJob (tid : Nat) : Service → List (List String) → Service
  | s, [] => s
  | s, o :: os => applyJob tid (svcAppend s tid "assistant" o) os

/-- The messages the job appends, starting at clock `c`. -/
def jobMsgs (c : Nat) : List (List String) → List Message
  | [] => []
  | o :: os => ⟨"assistant", o, c⟩ :: jobMsgs (c + 1) os

/-- Result of `ask_assistant`: the fetched transcript, the rendering
produced by `pretty_print` (`none` = raise), the final service state, and
the client-operation log. -/
structure AskOut where
  messages : List Message
  rendered : Option (List String)
  service : Service
  log : List LogE
deriving DecidableEq, Repr

/-- Embedding of `ask_assistant` (lines 137-148): create a thread and run,
poll with `wait_on_run`, fetch the transcript with `get_response`, render
it with `pretty_print`.  `none` means the poll loop has not returned within
`fuel` iterations. -/
def ask_assistant (moduleClient client : Nat) (env : AskEnv) (fuel : Nat)
    (assistant_id : Nat) (user_input : String) (s : Service) : Option AskOut :=
  let ((thread, run), s1, lg1) :=
    create_thread_and_run moduleClient assistant_id client user_input env.initStatus s
  let s2 := applyJob thread.id s1 env.jobOutputs
  match wait_on_run moduleClient env.statusAt fuel run 0 0 with
  | none => none
  | some (_, _, _, wlg) =>
    let (msgs, lg2) := get_response moduleClient thread s2
    some ⟨msgs, pretty_print msgs, s2, lg1 ++ wlg ++ lg2⟩

/-- Replace the client field of every `threads.create` log entry, to state
that the rest of the log does not depend on the explicit client. -/
def scrubLog (c : Nat) : List LogE → List LogE
  | [] => []
  | (cl, op) :: rest =>
    (if op = "threads.create" then (c, op) else (cl, op)) :: scrubLog c rest

/-! ## Concrete fixtures used by witnesses and counterexamples -/

/-- Status oracle reporting `"completed"` at every retrieve. -/
def orcCompleted : Nat → String := fun _ => "completed"

/-- Status oracle reporting `"queued"` forever. -/
def orcQueued : Nat → String := fun _ => "queued"

/-- Status oracle reporting `"failed"` at every retrieve. -/
def orcFailed : Nat → String := fun _ => "failed"

/-- An empty conversation-service state. -/
def svcEmpty : Service := ⟨[], 0, 0, 0⟩

/-- Environment: run starts queued, completes at the first retrieve, job
appends one assistant message. -/
def envDone : AskEnv := ⟨"queued", orcCompleted, [["ans"]]⟩

/-- Environment identical to `envDone` except the terminal status is
`"failed"`. -/
def envFail : AskEnv := ⟨"queued", orcFailed, [["ans"]]⟩

/-- Environment whose job appends one assistant message with an empty
content sequence. -/
def envEmptyContent : AskEnv := ⟨"queued", orcCompleted, [[]]⟩

/-- An empty filesystem. -/
def fsEmpty : String → Option String := fun _ => none

/-- An empty assistant-service provisioning state. -/
def asvcEmpty : AsstService := ⟨0, [], 0, []⟩

/-- Process environment with both API keys set. -/
def envKeys : String → Option String := fun _ => some "k"

/-- HTTP environment answering 200 with body `"[]"`. -/
def httpOk : String → HttpResponse := fun _ => ⟨200, dumpJson (Json.arr .nil)⟩

/-- HTTP environment answering 404 with body `"x"`. -/
def httpNotFound : String → HttpResponse := fun _ => ⟨404, "x"⟩

/-- HTTP environment answering 200 whose JSON body is the very string the
error branch would produce for a 404 with body `"x"`. -/
def httpOkErrString : String → HttpResponse := fun _ => ⟨200, "\"Error: 404 - x\""⟩

/-- Strict message ordering by creation time. -/
def createdLt (m1 m2 : Message) : Prop := m1.created_at < m2.created_at

/-- The output of the witness conversation against `envDone`. -/
def outDone : AskOut :=
  ⟨[⟨"user", ["q"], 0⟩, ⟨"assistant", ["ans"], 1⟩],
   some ["# Messages", "user: q", "assistant: ans", ""],
   ⟨[(0, [⟨"user", ["q"], 0⟩, ⟨"assistant", ["ans"], 1⟩])], 1, 1, 2⟩,
   [(0, "threads.create"), (0, "messages.create"), (0, "runs.create"),
    (0, "runs.retrieve"), (0, "messages.list")]⟩

/-- Like `outDone` but for module client 7 and explicit client 1. -/
def outA : AskOut :=
  { outDone with log := [(1, "threads.create"), (7, "messages.create"),
      (7, "runs.create"), (7, "runs.retrieve"), (7, "messages.list")] }

/-- Like `outDone` but for module client 7 and explicit client 2. -/
def outB : AskOut :=
  { outDone with log := [(2, "threads.create"), (7, "messages.create"),
      (7, "runs.create"), (7, "runs.retrieve"), (7, "messages.list")] }

/-- The assistant provisioned by the concrete witness runs. -/
def mkAsst0 : Assistant :=
  ⟨0, "Clinical Data Assistant medium article",
   "Answer only using the file(s) provided.", "gpt-4-1106-preview",
   ["retrieval", "code_interpreter"], [0]⟩

/-- Expected `make_assistant` output for the 200-response witness run. -/
def mkOut0 : MakeOut :=
  ⟨mkAsst0,
   fsWrite fsEmpty "data/dataset.json" (dumpJson (Json.arr .nil)),
   ⟨1, [(0, mkAsst0)], 1, [(0, dumpJson (Json.arr .nil))]⟩,
   ["assistants.create", "files.create", "assistants.update"]⟩

/-! # Theorems -/

/-! ## JSON serialize/deserialize round trip -/

theorem digitChar_isDigit (d : Nat) (h : d < 10) : (digitChar d).isDigit = true := by
  interval_cases d <;> decide

theorem digitChar_val (d : Nat) (h : d < 10) : (digitChar d).toNat - 48 = d := by
  interval_cases d <;> decide

theorem natDigits_ne_nil (n : Nat) : natDigits n ≠ [] := by
  rw [natDigits]
  split <;> simp

theorem natDigits_digits (n : Nat) : ∀ c ∈ natDigits n, c.isDigit = true := by
  induction n using Nat.strong_induction_on with
  | _ n ih =>
    rw [natDigits]
    split
    · next h =>
      intro c hc
      simp only [List.mem_singleton] at hc
      subst hc
      exact digitChar_isDigit n h
    · next h =>
      intro c hc
      rw [List.mem_append] at hc
      rcases hc with hc | hc
      · exact ih (n / 10) (Nat.div_lt_self (by omega) (by omega)) c hc
      · simp only [List.mem_singleton] at hc
        subst hc
        exact digitChar_isDigit (n % 10) (Nat.mod_lt _ (by omega))

theorem foldl_natDigits (n : Nat) : ∀ acc : Nat,
    (natDigits n).foldl (fun a c => a * 10 + (c.toNat - 48)) acc
      = acc * 10 ^ (natDigits n).length + n := by
  induction n using Nat.strong_induction_on with
  | _ n ih =>
    intro acc
    rw [natDigits]
    split
    · next h =>
      simp only [List.foldl, List.length_singleton, pow_one]
      rw [digitChar_val n h]
    · next h =>
      rw [List.foldl_append, List.length_append, List.length_singleton]
      simp only [List.foldl]
      rw [ih (n / 10) (Nat.div_lt_self (by omega) (by omega)) acc]
      rw [digitChar_val (n % 10) (Nat.mod_lt _ (by omega))]
      rw [pow_succ]
      have := Nat.div_add_mod n 10
      ring_nf
      omega
theorem parseDigits_spec : ∀ (ds rest : List Char) (acc : Nat),
    (∀ c ∈ ds, c.isDigit = true) → headDigit rest = false →
    parseDigits (ds ++ rest) acc
      = (ds.foldl (fun a c => a * 10 + (c.toNat - 48)) acc, rest) := by
  intro ds
  induction ds with
  | nil =>
    intro rest acc _ hrest
    cases rest with
    | nil => rfl
    | cons c r =>
      simp only [headDigit] at hrest
      simp [parseDigits, hrest]
  | cons c ds ih =>
    intro rest acc hds hrest
    have hc : c.isDigit = true := hds c (by simp)
    simp only [List.cons_append, parseDigits, hc, if_true, List.foldl]
    exact ih rest _ (fun d hd => hds d (by simp [hd])) hrest

theorem parseNatNum_natDigits (n : Nat) (rest : List Char)
    (hrest : headDigit rest = false) :
    parseNatNum (natDigits n ++ rest) = some (n, rest) := by
  cases h : natDigits n with
  | nil => exact absurd h (natDigits_ne_nil n)
  | cons c ds =>
    have hc : c.isDigit = true := natDigits_digits n c (by rw [h]; simp)
    have hall : ∀ d ∈ c :: ds, d.isDigit = true := by
      intro d hd
      exact natDigits_digits n d (by rw [h]; exact hd)
    rw [List.cons_append, parseNatNum]
    rw [if_pos hc]
    rw [← List.cons_append, parseDigits_spec (c :: ds) rest 0 hall hrest]
    rw [← h, foldl_natDigits n 0]
    simp

theorem isDigit_ne_minus (c : Char) (h : c.isDigit = true) : ¬(c = '-') := by
  intro e
  subst e
  exact absurd h (by decide)

theorem parseNum_intChars (n : Int) (rest : List Char)
    (hrest : headDigit rest = false) :
    parseNum (intChars n ++ rest) = some (n, rest) := by
  unfold intChars
  split
  · next hneg =>
    rw [List.cons_append, parseNum, if_pos rfl]
    rw [parseNatNum_natDigits _ rest hrest]
    show some (-(n.natAbs : Int), rest) = some (n, rest)
    have h2 : (-(n.natAbs : Int)) = n := by omega
    rw [h2]
  · next hpos =>
    cases h : natDigits n.natAbs with
    | nil => exact absurd h (natDigits_ne_nil _)
    | cons c ds =>
      have hc : c.isDigit = true := natDigits_digits n.natAbs c (by rw [h]; simp)
      rw [List.cons_append, parseNum, if_neg (isDigit_ne_minus c hc)]
      rw [← List.cons_append, ← h, parseNatNum_natDigits _ rest hrest]
      show some ((n.natAbs : Int), rest) = some (n, rest)
      have h2 : ((n.natAbs : Int)) = n := by omega
      rw [h2]

theorem parseStrBody_escList : ∀ (s rest : List Char),
    parseStrBody (escList s ++ '"' :: rest) = some (s, rest) := by
  intro s
  induction s with
  | nil =>
    intro rest
    show parseStrBody ('"' :: rest) = some ([], rest)
    rw [parseStrBody.eq_def]
    simp
  | cons c cs ih =>
    intro rest
    by_cases hc : c = '"' ∨ c = '\\'
    · simp only [escList, escChar, if_pos hc, List.cons_append, List.append_assoc,
        List.nil_append]
      have red : parseStrBody ('\\' :: c :: (escList cs ++ '"' :: rest)) =
          if c = '"' ∨ c = '\\' then
            match parseStrBody (escList cs ++ '"' :: rest) with
            | none => none
            | some (s, r) => some (c :: s, r)
          else none := rfl
      rw [red, if_pos hc, ih rest]
    · rcases not_or.mp hc with ⟨hc1, hc2⟩
      simp only [escList, escChar, if_neg hc, List.cons_append, List.singleton_append,
        List.nil_append]
      rw [parseStrBody.eq_def]
      simp only [List.nil_append]
      rw [if_neg hc1, if_neg hc2, ih rest]
theorem intChars_ne_nil (n : Int) : intChars n ≠ [] := by
  unfold intChars
  split
  · simp
  · exact natDigits_ne_nil _

mutual

theorem sizeJ_le_dump : ∀ j : Json, sizeJ j ≤ (dumpJ j).length
  | .null => by simp [sizeJ, dumpJ]
  | .bool b => by cases b <;> simp [sizeJ, dumpJ]
  | .num n => by
      simp only [sizeJ, dumpJ]
      have := intChars_ne_nil n
      cases h : intChars n with
      | nil => exact absurd h this
      | cons c t => simp [h]
  | .str s => by simp [sizeJ, dumpJ]
  | .arr .nil => by simp [sizeJ, sizeL, dumpJ]
  | .arr (.cons j l) => by
      have h1 := sizeJ_le_dump j
      have h2 := sizeL_le_dump l
      simp only [sizeJ, sizeL, dumpJ, List.length_cons, List.length_append,
        List.length_singleton]
      omega
  | .obj .onil => by simp [sizeJ, sizeO, dumpJ]
  | .obj (.ocons k v o) => by
      have h1 := sizeJ_le_dump v
      have h2 := sizeO_le_dump o
      simp only [sizeJ, sizeO, dumpJ, List.length_cons, List.length_append,
        List.length_singleton]
      omega

theorem sizeL_le_dump : ∀ l : JsonList, sizeL l ≤ (dumpL l).length
  | .nil => by simp [sizeL, dumpL]
  | .cons j l => by
      have h1 := sizeJ_le_dump j
      have h2 := sizeL_le_dump l
      simp only [sizeL, dumpL, List.length_cons, List.length_append]
      omega

theorem sizeO_le_dump : ∀ o : JsonObj, sizeO o ≤ (dumpO o).length
  | .onil => by simp [sizeO, dumpO]
  | .ocons k v o => by
      have h1 := sizeJ_le_dump v
      have h2 := sizeO_le_dump o
      simp only [sizeO, dumpO, List.length_cons, List.length_append]
      omega

end

theorem isDigit_ne (c : Char) (h : c.isDigit = true) :
    c ≠ ']' ∧ c ≠ '\x7d' ∧ c ≠ 'n' ∧ c ≠ 't' ∧ c ≠ 'f' ∧ c ≠ '"' ∧ c ≠ '[' ∧ c ≠ '\x7b' := by
  refine ⟨?_, ?_, ?_, ?_, ?_, ?_, ?_, ?_⟩ <;>
    · intro e
      subst e
      exact absurd h (by decide)

theorem dumpJ_head (j : Json) :
    ∃ c t, dumpJ j = c :: t ∧ c ≠ ']' ∧ c ≠ '\x7d' := by
  cases j with
  | null => exact ⟨'n', _, rfl, by decide, by decide⟩
  | bool b => cases b with
    | true => exact ⟨'t', _, rfl, by decide, by decide⟩
    | false => exact ⟨'f', _, rfl, by decide, by decide⟩
  | num n =>
    cases h : intChars n with
    | nil => exact absurd h (intChars_ne_nil n)
    | cons c t =>
      have hc : c = '-' ∨ c.isDigit = true := by
        unfold intChars at h
        split at h
        · exact Or.inl (List.cons.injEq .. ▸ h).1.symm
        · right
          have := natDigits_digits n.natAbs c
          apply this
          rw [h]
          simp
      refine ⟨c, t, by simp [dumpJ, h], ?_, ?_⟩
      · rcases hc with hc | hc
        · subst hc; decide
        · exact (isDigit_ne c hc).1
      · rcases hc with hc | hc
        · subst hc; decide
        · exact (isDigit_ne c hc).2.1
  | str s => exact ⟨'"', _, rfl, by decide, by decide⟩
  | arr l => cases l with
    | nil => exact ⟨'[', _, rfl, by decide, by decide⟩
    | cons j l => exact ⟨'[', _, rfl, by decide, by decide⟩
  | obj o => cases o with
    | onil => exact ⟨'\x7b', _, rfl, by decide, by decide⟩
    | ocons k v o => exact ⟨'\x7b', _, rfl, by decide, by decide⟩

theorem headDigit_dumpL (l : JsonList) (rest : List Char) :
    headDigit (dumpL l ++ ']' :: rest) = false := by
  cases l <;> simp [dumpL, headDigit]

theorem headDigit_dumpO (o : JsonObj) (rest : List Char) :
    headDigit (dumpO o ++ '\x7d' :: rest) = false := by
  cases o <;> simp [dumpO, headDigit]

theorem parseJ_cons_eq (fuel : Nat) (c : Char) (r : List Char) :
    parseJ (fuel + 1) (c :: r) =
      (if c = '-' ∨ c.isDigit then
        match parseNum (c :: r) with
        | none => none
        | some (n, r2) => some (.num n, r2)
      else if c = 'n' then
        match stripLit ['u', 'l', 'l'] r with
        | none => none
        | some r2 => some (.null, r2)
      else if c = 't' then
        match stripLit ['r', 'u', 'e'] r with
        | none => none
        | some r2 => some (.bool true, r2)
      else if c = 'f' then
        match stripLit ['a', 'l', 's', 'e'] r with
        | none => none
        | some r2 => some (.bool false, r2)
      else if c = '"' then
        match parseStrBody r with
        | none => none
        | some (s, r2) => some (.str (String.mk s), r2)
      else if c = '[' then
        match r with
        | [] => none
        | d :: r1 =>
          if d = ']' then some (.arr .nil, r1)
          else
            match parseJ fuel (d :: r1) with
            | none => none
            | some (j, r2) =>
              match parseItems fuel r2 with
              | none => none
              | some (l, r3) => some (.arr (.cons j l), r3)
      else if c = '\x7b' then
        match r with
        | [] => none
        | d :: r1 =>
          if d = '\x7d' then some (.obj .onil, r1)
          else if d = '"' then
            match parseStrBody r1 with
            | none => none
            | some (k, r2) =>
              match r2 with
              | [] => none
              | c1 :: r3 =>
                if c1 = ':' then
                  match r3 with
                  | [] => none
                  | c2 :: r4 =>
                    if c2 = ' ' then
                      match parseJ fuel r4 with
                      | none => none
                      | some (v, r5) =>
                        match parseFields fuel r5 with
                        | none => none
                        | some (o, r6) =>
                          some (.obj (.ocons (String.mk k) v o), r6)
                    else none
                else none
          else none
      else none) := rfl
theorem parse_dump : ∀ fuel : Nat,
    (∀ (j : Json) (rest : List Char), sizeJ j ≤ fuel → headDigit rest = false →
      parseJ fuel (dumpJ j ++ rest) = some (j, rest)) ∧
    (∀ (l : JsonList) (rest : List Char), sizeL l + 1 ≤ fuel → headDigit rest = false →
      parseItems fuel (dumpL l ++ ']' :: rest) = some (l, rest)) ∧
    (∀ (o : JsonObj) (rest : List Char), sizeO o + 1 ≤ fuel → headDigit rest = false →
      parseFields fuel (dumpO o ++ '\x7d' :: rest) = some (o, rest)) := by
  intro fuel
  induction fuel with
  | zero =>
    refine ⟨?_, ?_, ?_⟩
    · intro j rest hs _
      exfalso
      cases j <;> simp [sizeJ] at hs
    · intro l rest hs _
      exact absurd hs (by omega)
    · intro o rest hs _
      exact absurd hs (by omega)
  | succ fuel ih =>
    obtain ⟨ihJ, ihL, ihO⟩ := ih
    refine ⟨?_, ?_, ?_⟩
    · intro j rest hs hr
      cases j with
      | null => simp [dumpJ, parseJ, stripLit]
      | bool b => cases b <;> simp [dumpJ, parseJ, stripLit]
      | num n =>
        obtain ⟨c, t, h⟩ : ∃ c t, intChars n = c :: t := by
          cases h : intChars n with
          | nil => exact absurd h (intChars_ne_nil n)
          | cons c t => exact ⟨c, t, rfl⟩
        have hcond : c = '-' ∨ c.isDigit = true := by
          unfold intChars at h
          split at h
          · exact Or.inl (List.cons.injEq .. ▸ h).1.symm
          · right
            apply natDigits_digits n.natAbs c
            rw [h]
            simp
        simp only [dumpJ]
        rw [h, List.cons_append, parseJ_cons_eq, if_pos hcond]
        rw [← List.cons_append, ← h, parseNum_intChars n rest hr]
      | str s =>
        obtain ⟨d⟩ := s
        simp only [dumpJ, List.cons_append, List.append_assoc, List.singleton_append,
          List.nil_append]
        rw [parseJ_cons_eq]
        rw [if_neg (by decide), if_neg (by decide), if_neg (by decide),
            if_neg (by decide), if_pos rfl]
        rw [parseStrBody_escList]
      | arr l =>
        cases l with
        | nil => simp [dumpJ, parseJ]
        | cons j1 l1 =>
          have hs1 : sizeJ j1 ≤ fuel := by simp only [sizeJ, sizeL] at hs; omega
          have hs2 : sizeL l1 + 1 ≤ fuel := by simp only [sizeJ, sizeL] at hs; omega
          obtain ⟨c, t, hh, hne, _⟩ := dumpJ_head j1
          simp only [dumpJ, List.cons_append, List.append_assoc, List.nil_append]
          rw [parseJ_cons_eq]
          rw [if_neg (by decide), if_neg (by decide), if_neg (by decide),
              if_neg (by decide), if_neg (by decide), if_pos rfl]
          rw [hh, List.cons_append]
          try dsimp only
          rw [if_neg hne]
          rw [← List.cons_append, ← hh,
              ihJ j1 (dumpL l1 ++ ']' :: rest) hs1 (headDigit_dumpL l1 rest)]
          try dsimp only
          rw [ihL l1 rest hs2 hr]
      | obj o =>
        cases o with
        | onil => simp [dumpJ, parseJ]
        | ocons k v o1 =>
          have hs1 : sizeJ v ≤ fuel := by simp only [sizeJ, sizeO] at hs; omega
          have hs2 : sizeO o1 + 1 ≤ fuel := by simp only [sizeJ, sizeO] at hs; omega
          obtain ⟨d⟩ := k
          simp only [dumpJ, List.cons_append, List.append_assoc, List.singleton_append,
            List.nil_append]
          rw [parseJ_cons_eq]
          rw [if_neg (by decide), if_neg (by decide), if_neg (by decide),
              if_neg (by decide), if_neg (by decide), if_neg (by decide), if_pos rfl]
          try dsimp only
          rw [if_neg (by decide), if_pos rfl]
          rw [parseStrBody_escList]
          try dsimp only
          rw [if_pos rfl]
          try dsimp only
          rw [if_pos rfl]
          rw [ihJ v (dumpO o1 ++ '\x7d' :: rest) hs1 (headDigit_dumpO o1 rest)]
          try dsimp only
          rw [ihO o1 rest hs2 hr]
    · intro l rest hs hr
      cases l with
      | nil => simp [dumpL, parseItems]
      | cons j1 l1 =>
        have hs1 : sizeJ j1 ≤ fuel := by simp only [sizeL] at hs; omega
        have hs2 : sizeL l1 + 1 ≤ fuel := by simp only [sizeL] at hs; omega
        simp only [dumpL, List.cons_append, List.append_assoc, List.nil_append]
        rw [parseItems]
        rw [if_neg (by decide), if_pos rfl]
        try dsimp only
        rw [if_pos rfl]
        rw [ihJ j1 (dumpL l1 ++ ']' :: rest) hs1 (headDigit_dumpL l1 rest)]
        try dsimp only
        rw [ihL l1 rest hs2 hr]
    · intro o rest hs hr
      cases o with
      | onil => simp [dumpO, parseFields]
      | ocons k v o1 =>
        have hs1 : sizeJ v ≤ fuel := by simp only [sizeO] at hs; omega
        have hs2 : sizeO o1 + 1 ≤ fuel := by simp only [sizeO] at hs; omega
        obtain ⟨d⟩ := k
        simp only [dumpO, List.cons_append, List.append_assoc, List.singleton_append,
          List.nil_append]
        rw [parseFields]
        rw [if_neg (by decide), if_pos rfl]
        try dsimp only
        rw [if_pos rfl]
        try dsimp only
        rw [if_pos rfl]
        rw [parseStrBody_escList]
        try dsimp only
        rw [if_pos rfl]
        try dsimp only
        rw [if_pos rfl]
        rw [ihJ v (dumpO o1 ++ '\x7d' :: rest) hs1 (headDigit_dumpO o1 rest)]
        try dsimp only
        rw [ihO o1 rest hs2 hr]
theorem jsonParse_dumpJson (j : Json) : jsonParse (dumpJson j) = some j := by
  unfold jsonParse dumpJson
  have hs : sizeJ j ≤ (dumpJ j).length + 1 :=
    le_trans (sizeJ_le_dump j) (by omega)
  have hmain := (parse_dump ((dumpJ j).length + 1)).1 j [] hs rfl
  rw [List.append_nil] at hmain
  have hlen : (String.mk (dumpJ j)).length = (dumpJ j).length := rfl
  have hdata : (String.mk (dumpJ j)).data = dumpJ j := rfl
  rw [hlen, hdata, hmain]

theorem wait_entry_terminal (mc : Nat) (st : Nat → String) (fuel : Nat)
    (run : RunObj) (k slept : Nat)
    (h : run.status ∉ ["queued", "in_progress"]) :
    wait_on_run mc st fuel run k slept = some (run, k, slept, []) := by
  cases fuel <;> simp [wait_on_run, h]

theorem wait_some (mc : Nat) (st : Nat → String) :
    ∀ (fuel : Nat) (run : RunObj) (k slept : Nat) (r : RunObj)
      (k2 sl2 : Nat) (lg : List LogE),
      wait_on_run mc st fuel run k slept = some (r, k2, sl2, lg) →
      r.status ∉ ["queued", "in_progress"] ∧ k ≤ k2 ∧
        sl2 = slept + 500 * (k2 - k) ∧
        lg = List.replicate (k2 - k) (mc, "runs.retrieve") := by
  intro fuel
  induction fuel with
  | zero =>
    intro run k slept r k2 sl2 lg h
    rw [wait_on_run] at h
    split at h
    · exact absurd h (by simp)
    · next hterm =>
      obtain ⟨h1, h2, h3, h4⟩ := by simpa using h
      subst h1 h2 h3 h4
      exact ⟨hterm, le_refl _, by omega, by simp⟩
  | succ fuel ih =>
    intro run k slept r k2 sl2 lg h
    rw [wait_on_run] at h
    split at h
    · next hnt =>
      cases hrec : wait_on_run mc st fuel
          { run with status := st k } (k + 1) (slept + 500) with
      | none => rw [hrec] at h; exact absurd h (by simp)
      | some out =>
        obtain ⟨r', k', sl', lg'⟩ := out
        rw [hrec] at h
        simp only [Option.some.injEq, Prod.mk.injEq] at h
        obtain ⟨h1, h2, h3, h4⟩ := h
        obtain ⟨g1, g2, g3, g4⟩ := ih _ _ _ _ _ _ _ hrec
        rw [← h1, ← h2, ← h3, ← h4]
        refine ⟨g1, by omega, by omega, ?_⟩
        rw [g4]
        have hk : k' - k = (k' - (k + 1)) + 1 := by omega
        rw [hk, List.replicate_succ]
    · next hterm =>
      obtain ⟨h1, h2, h3, h4⟩ := by simpa using h
      subst h1 h2 h3 h4
      exact ⟨hterm, le_refl _, by omega, by simp⟩

theorem wait_none_forever (mc : Nat) (st : Nat → String)
    (hst : ∀ j, st j ∈ ["queued", "in_progress"]) :
    ∀ (fuel : Nat) (run : RunObj) (k slept : Nat),
      run.status ∈ ["queued", "in_progress"] →
      wait_on_run mc st fuel run k slept = none := by
  intro fuel
  induction fuel with
  | zero =>
    intro run k slept hnt
    simp [wait_on_run, hnt]
  | succ fuel ih =>
    intro run k slept hnt
    rw [wait_on_run]
    rw [if_pos hnt]
    rw [ih { run with status := st k } (k + 1) (slept + 500) (hst k)]

theorem wait_terminates (mc : Nat) (st : Nat → String) (j : Nat)
    (hj : st j ∉ ["queued", "in_progress"]) :
    ∀ (fuel : Nat) (run : RunObj) (k slept : Nat),
      run.status ∈ ["queued", "in_progress"] →
      k ≤ j → j + 1 - k ≤ fuel →
      ∃ r sl2 lg, wait_on_run mc st fuel run k slept
        = some (r, j + 1, sl2, lg) ∨
          ∃ k2, k2 ≤ j ∧ wait_on_run mc st fuel run k slept
            = some (r, k2, sl2, lg) := by
  intro fuel
  induction fuel with
  | zero =>
    intro run k slept hnt hkj hfuel
    omega
  | succ fuel ih =>
    intro run k slept hnt hkj hfuel
    rw [wait_on_run, if_pos hnt]
    by_cases hk : st k ∈ ["queued", "in_progress"]
    · have hkj2 : k < j := by
        rcases Nat.lt_or_ge k j with h | h
        · exact h
        · exfalso
          have : k = j := by omega
          subst this
          exact hj hk
      obtain ⟨r, sl2, lg, hcase⟩ := ih { run with status := st k } (k + 1)
        (slept + 500) hk (by omega) (by omega)
      rcases hcase with heq | ⟨k2, hk2, heq⟩
      · exact ⟨r, sl2, (mc, "runs.retrieve") :: lg, Or.inl (by rw [heq])⟩
      · exact ⟨r, sl2, (mc, "runs.retrieve") :: lg,
          Or.inr ⟨k2, hk2, by rw [heq]⟩⟩
    · rw [wait_entry_terminal mc st fuel { run with status := st k } (k + 1)
        (slept + 500) hk]
      by_cases hkj3 : k = j
      · subst hkj3
        exact ⟨{ run with status := st k }, slept + 500,
          [(mc, "runs.retrieve")], Or.inl rfl⟩
      · exact ⟨{ run with status := st k }, slept + 500,
          [(mc, "runs.retrieve")], Or.inr ⟨k + 1, by omega, rfl⟩⟩

theorem wait_min_retrieves (mc : Nat) (st : Nat → String) (fuel : Nat)
    (run : RunObj) (k slept : Nat) (r : RunObj) (k2 sl2 : Nat) (lg : List LogE)
    (hnt : run.status ∈ ["queued", "in_progress"])
    (h : wait_on_run mc st fuel run k slept = some (r, k2, sl2, lg)) :
    k + 1 ≤ k2 := by
  cases fuel with
  | zero => rw [wait_on_run, if_pos hnt] at h; exact absurd h (by simp)
  | succ fuel =>
    rw [wait_on_run, if_pos hnt] at h
    cases hrec : wait_on_run mc st fuel
        { run with status := st k } (k + 1) (slept + 500) with
    | none => rw [hrec] at h; exact absurd h (by simp)
    | some out =>
      obtain ⟨r', k', sl', lg'⟩ := out
      rw [hrec] at h
      simp only [Option.some.injEq, Prod.mk.injEq] at h
      obtain ⟨g1, g2, g3, g4⟩ := wait_some mc st fuel _ _ _ _ _ _ _ hrec
      omega

/-- C1 (amended claim): the poll loop returns iff the status leaves
`{queued, in_progress}`; while every reported status stays in that set it
never returns; each iteration re-fetches the status once and sleeps a fixed
500 ms (no backoff, no iteration bound, no timeout); an invocation entered
with a non-terminal status issues at least one status check before
returning, while an invocation entered with a terminal status returns
immediately with zero checks. -/
theorem wait_on_run_spec (mc : Nat) (st : Nat → String) (fuel : Nat)
    (run : RunObj) (k slept : Nat) :
    (run.status ∉ ["queued", "in_progress"] →
      wait_on_run mc st fuel run k slept = some (run, k, slept, [])) ∧
    (∀ r k2 sl2 lg, wait_on_run mc st fuel run k slept = some (r, k2, sl2, lg) →
      r.status ∉ ["queued", "in_progress"] ∧ k ≤ k2 ∧
        sl2 = slept + 500 * (k2 - k) ∧
        lg = List.replicate (k2 - k) (mc, "runs.retrieve")) ∧
    (run.status ∈ ["queued", "in_progress"] →
      (∀ j, st j ∈ ["queued", "in_progress"]) →
      wait_on_run mc st fuel run k slept = none) ∧
    (∀ j, run.status ∈ ["queued", "in_progress"] →
      st j ∉ ["queued", "in_progress"] → k ≤ j → j + 1 - k ≤ fuel →
      ∃ out, wait_on_run mc st fuel run k slept = some out) ∧
    (∀ r k2 sl2 lg, run.status ∈ ["queued", "in_progress"] →
      wait_on_run mc st fuel run k slept = some (r, k2, sl2, lg) →
      k + 1 ≤ k2) := by
  refine ⟨?_, ?_, ?_, ?_, ?_⟩
  · intro h
    exact wait_entry_terminal mc st fuel run k slept h
  · intro r k2 sl2 lg h
    exact wait_some mc st fuel run k slept r k2 sl2 lg h
  · intro hnt hst
    exact wait_none_forever mc st hst fuel run k slept hnt
  · intro j hnt hj hkj hfuel
    obtain ⟨r, sl2, lg, hcase⟩ := wait_terminates mc st j hj fuel run k slept hnt hkj hfuel
    rcases hcase with heq | ⟨k2, _, heq⟩
    · exact ⟨_, heq⟩
    · exact ⟨_, heq⟩
  · intro r k2 sl2 lg hnt h
    exact wait_min_retrieves mc st fuel run k slept r k2 sl2 lg hnt h

theorem lookupMsgs_appendMsg (tid : Nat) (m : Message) :
    ∀ ts : List (Nat × List Message), hasThread ts tid = true →
      lookupMsgs (appendMsg tid m ts) tid = lookupMsgs ts tid ++ [m] := by
  intro ts
  induction ts with
  | nil => intro h; simp [hasThread] at h
  | cons p rest ih =>
    intro h
    obtain ⟨t, ms⟩ := p
    by_cases ht : t = tid
    · subst ht
      simp [appendMsg, lookupMsgs]
    · simp only [appendMsg, lookupMsgs, if_neg ht]
      simp only [hasThread, if_neg ht] at h
      exact ih h

theorem hasThread_appendMsg (tid tid2 : Nat) (m : Message) :
    ∀ ts, hasThread (appendMsg tid2 m ts) tid = hasThread ts tid := by
  intro ts
  induction ts with
  | nil => rfl
  | cons p rest ih =>
    obtain ⟨t, ms⟩ := p
    by_cases ht : t = tid2
    · subst ht
      simp [appendMsg, hasThread]
    · simp only [appendMsg, if_neg ht, hasThread, ih]

theorem lookupMsgs_applyJob (tid : Nat) :
    ∀ (os : List (List String)) (s : Service), hasThread s.threads tid = true →
      lookupMsgs (applyJob tid s os).threads tid
        = lookupMsgs s.threads tid ++ jobMsgs s.clock os := by
  intro os
  induction os with
  | nil => intro s _; simp [applyJob, jobMsgs]
  | cons o os ih =>
    intro s hs
    simp only [applyJob, jobMsgs]
    rw [ih (svcAppend s tid "assistant" o)
        (by simp only [svcAppend]; rw [hasThread_appendMsg]; exact hs)]
    simp only [svcAppend]
    rw [lookupMsgs_appendMsg tid _ s.threads hs]
    simp

theorem jobMsgs_roles (c : Nat) (os : List (List String)) :
    ∀ m ∈ jobMsgs c os, m.role = "assistant" := by
  induction os generalizing c with
  | nil => intro m hm; simp [jobMsgs] at hm
  | cons o os ih =>
    intro m hm
    simp only [jobMsgs, List.mem_cons] at hm
    rcases hm with hm | hm
    · rw [hm]
    · exact ih (c + 1) m hm

theorem chain_jobMsgs :
    ∀ (os : List (List String)) (c : Nat) (m : Message), m.created_at < c →
      List.Chain' (fun a b => a.created_at < b.created_at) (m :: jobMsgs c os) := by
  intro os
  induction os with
  | nil => intro c m _; simp [jobMsgs]
  | cons o os ih =>
    intro c m hm
    simp only [jobMsgs]
    rw [List.chain'_cons]
    exact ⟨hm, ih (c + 1) ⟨"assistant", o, c⟩ (by simp)⟩

theorem ask_assistant_eqn (mc c : Nat) (env : AskEnv) (fuel a : Nat)
    (u : String) (s : Service) :
    ask_assistant mc c env fuel a u s =
      match wait_on_run mc env.statusAt fuel
          ⟨s.nextRunId, s.nextThreadId, a, env.initStatus⟩ 0 0 with
      | none => none
      | some (_, _, _, wlg) =>
        some ⟨Message.mk "user" [u] s.clock :: jobMsgs (s.clock + 1) env.jobOutputs,
              pretty_print (Message.mk "user" [u] s.clock
                :: jobMsgs (s.clock + 1) env.jobOutputs),
              applyJob s.nextThreadId
                ⟨(s.nextThreadId, [Message.mk "user" [u] s.clock]) :: s.threads,
                 s.nextThreadId + 1, s.nextRunId + 1, s.clock + 1⟩ env.jobOutputs,
              (c, "threads.create") :: (mc, "messages.create") :: (mc, "runs.create")
                :: (wlg ++ [(mc, "messages.list")])⟩ := by
  unfold ask_assistant create_thread_and_run submit_message threads_create
    messages_create runs_create svcAppend get_response messages_list
  dsimp only
  simp only [appendMsg, eq_self_iff_true, if_true, List.nil_append]
  cases hw : wait_on_run mc env.statusAt fuel
      ⟨s.nextRunId, s.nextThreadId, a, env.initStatus⟩ 0 0 with
  | none => rfl
  | some out =>
    obtain ⟨r, k2, sl2, wlg⟩ := out
    dsimp only
    have hmsgs : lookupMsgs (applyJob s.nextThreadId
        ⟨(s.nextThreadId, [Message.mk "user" [u] s.clock]) :: s.threads,
         s.nextThreadId + 1, s.nextRunId + 1, s.clock + 1⟩ env.jobOutputs).threads
        s.nextThreadId
        = Message.mk "user" [u] s.clock :: jobMsgs (s.clock + 1) env.jobOutputs := by
      rw [lookupMsgs_applyJob s.nextThreadId env.jobOutputs
        ⟨(s.nextThreadId, [Message.mk "user" [u] s.clock]) :: s.threads,
         s.nextThreadId + 1, s.nextRunId + 1, s.clock + 1⟩
        (by simp [hasThread])]
      simp [lookupMsgs]
    rw [hmsgs]
    rfl

theorem strAppendAssoc (a b c : String) : a ++ b ++ c = a ++ (b ++ c) := by
  obtain ⟨la⟩ := a
  obtain ⟨lb⟩ := b
  obtain ⟨lc⟩ := c
  show String.mk (la ++ lb ++ lc) = String.mk (la ++ (lb ++ lc))
  rw [List.append_assoc]

/-- C1 counterexample: the claim's final conjunct — "on every invocation it
issues at least one status check with no status change before returning" —
fails: an invocation whose run is already terminal returns after zero
status checks, and an invocation entered as `"queued"` whose first check
reports `"completed"` returns after exactly one check, which did change the
status. -/
theorem wait_on_run_always_checks_false :
    wait_on_run 0 orcCompleted 5 ⟨0, 0, 0, "completed"⟩ 0 0
        = some (⟨0, 0, 0, "completed"⟩, 0, 0, []) ∧
    wait_on_run 0 orcCompleted 5 ⟨0, 0, 0, "queued"⟩ 0 0
        = some (⟨0, 0, 0, "completed"⟩, 1, 500, [(0, "runs.retrieve")]) ∧
    ¬((0 : Nat) ≥ 1) ∧ "queued" ≠ "completed" := by
  refine ⟨rfl, rfl, by omega, by decide⟩

theorem wait_on_run_spec_witness :
    wait_on_run 0 orcCompleted 3 ⟨0, 0, 0, "completed"⟩ 0 0
        = some (⟨0, 0, 0, "completed"⟩, 0, 0, []) ∧
    wait_on_run 0 orcCompleted 3 ⟨0, 0, 0, "queued"⟩ 0 0
        = some (⟨0, 0, 0, "completed"⟩, 1, 500, [(0, "runs.retrieve")]) ∧
    (0 : Nat) + 1 ≤ 1 :=
  ⟨(wait_on_run_spec 0 orcCompleted 3 ⟨0, 0, 0, "completed"⟩ 0 0).1 (by decide),
   rfl,
   (wait_on_run_spec 0 orcCompleted 3 ⟨0, 0, 0, "queued"⟩ 0 0).2.2.2.2
     ⟨0, 0, 0, "completed"⟩ 1 500 [(0, "runs.retrieve")] (by decide) rfl⟩

/-- C2: for every conversation driven by `ask_assistant` that returns, the
transcript is the just-submitted user message (stamped with the entry
clock) followed by exactly the assistant messages the remote job appended,
in strictly ascending creation order. -/
theorem ask_assistant_message_order (mc c : Nat) (env : AskEnv) (fuel a : Nat)
    (u : String) (s : Service) (o : AskOut)
    (h : ask_assistant mc c env fuel a u s = some o) :
    o.messages = Message.mk "user" [u] s.clock
        :: jobMsgs (s.clock + 1) env.jobOutputs ∧
    List.Chain' createdLt o.messages ∧
    (∀ m ∈ jobMsgs (s.clock + 1) env.jobOutputs, m.role = "assistant") := by
  rw [ask_assistant_eqn] at h
  cases hw : wait_on_run mc env.statusAt fuel
      ⟨s.nextRunId, s.nextThreadId, a, env.initStatus⟩ 0 0 with
  | none => rw [hw] at h; exact absurd h (by simp)
  | some out =>
    obtain ⟨r, k2, sl2, wlg⟩ := out
    rw [hw] at h
    simp only [Option.some.injEq] at h
    subst h
    refine ⟨rfl, ?_, jobMsgs_roles _ _⟩
    exact chain_jobMsgs env.jobOutputs (s.clock + 1) _ (by simp [createdLt])

theorem ask_assistant_message_order_witness :
    ask_assistant 0 0 envDone 3 0 "q" svcEmpty = some outDone ∧
    outDone.messages = [⟨"user", ["q"], 0⟩, ⟨"assistant", ["ans"], 1⟩] ∧
    List.Chain' createdLt outDone.messages :=
  ⟨rfl,
   ((ask_assistant_message_order 0 0 envDone 3 0 "q" svcEmpty outDone rfl).1).trans rfl,
   (ask_assistant_message_order 0 0 envDone 3 0 "q" svcEmpty outDone rfl).2.1⟩

/-- C5: the driver does not branch on which terminal state ended the run:
two environments that agree on the job's appended
messages but reach different terminal statuses (from any initial status) (after possibly different
numbers of polls) yield identical transcripts, identical rendering and
identical service state, and in both runs the last operation issued is the
unconditional `messages.list` fetch.  No failure signal reaches the
caller. -/
theorem ask_assistant_terminal_blind (mc c a : Nat) (u : String) (s : Service)
    (env1 env2 : AskEnv) (fuel1 fuel2 : Nat) (o1 o2 : AskOut)
    (hjob : env1.jobOutputs = env2.jobOutputs)
    (h1 : ask_assistant mc c env1 fuel1 a u s = some o1)
    (h2 : ask_assistant mc c env2 fuel2 a u s = some o2) :
    o1.messages = o2.messages ∧ o1.rendered = o2.rendered ∧
      o1.service = o2.service ∧
      o1.log.getLast? = some (mc, "messages.list") ∧
      o2.log.getLast? = some (mc, "messages.list") := by
  rw [ask_assistant_eqn] at h1 h2
  cases hw1 : wait_on_run mc env1.statusAt fuel1
      ⟨s.nextRunId, s.nextThreadId, a, env1.initStatus⟩ 0 0 with
  | none => rw [hw1] at h1; exact absurd h1 (by simp)
  | some out1 =>
    obtain ⟨r1, k1, sl1, wlg1⟩ := out1
    rw [hw1] at h1
    cases hw2 : wait_on_run mc env2.statusAt fuel2
        ⟨s.nextRunId, s.nextThreadId, a, env2.initStatus⟩ 0 0 with
    | none => rw [hw2] at h2; exact absurd h2 (by simp)
    | some out2 =>
      obtain ⟨r2, k2, sl2, wlg2⟩ := out2
      rw [hw2] at h2
      simp only [Option.some.injEq] at h1 h2
      subst h1
      subst h2
      refine ⟨by rw [hjob], by rw [hjob], by rw [hjob], ?_, ?_⟩
      · have hsh : (c, "threads.create") :: (mc, "messages.create")
            :: (mc, "runs.create") :: (wlg1 ++ [(mc, "messages.list")])
            = ((c, "threads.create") :: (mc, "messages.create")
              :: (mc, "runs.create") :: wlg1) ++ [(mc, "messages.list")] := by
          simp
        rw [hsh, List.getLast?_concat]
      · have hsh : (c, "threads.create") :: (mc, "messages.create")
            :: (mc, "runs.create") :: (wlg2 ++ [(mc, "messages.list")])
            = ((c, "threads.create") :: (mc, "messages.create")
              :: (mc, "runs.create") :: wlg2) ++ [(mc, "messages.list")] := by
          simp
        rw [hsh, List.getLast?_concat]

theorem ask_assistant_terminal_blind_witness :
    ask_assistant 0 0 envDone 3 0 "q" svcEmpty = some outDone ∧
    ask_assistant 0 0 envFail 4 0 "q" svcEmpty = some outDone ∧
    outDone.log.getLast? = some (0, "messages.list") :=
  ⟨rfl, rfl,
   (ask_assistant_terminal_blind 0 0 0 "q" svcEmpty envDone envFail 3 4
     outDone outDone rfl rfl rfl).2.2.2.1⟩

/-- C9: the message-create, run-create, run-retrieve and message-list
operations are issued through the module-level client, so two executions
differing only in the explicitly passed client object produce identical
transcripts, rendering and service state, and logs that differ only in the
client of the single thread-creation operation. -/
theorem ask_assistant_module_client (mc c1 c2 : Nat) (env : AskEnv) (fuel a : Nat)
    (u : String) (s : Service) (o1 o2 : AskOut)
    (h1 : ask_assistant mc c1 env fuel a u s = some o1)
    (h2 : ask_assistant mc c2 env fuel a u s = some o2) :
    o1.messages = o2.messages ∧ o1.rendered = o2.rendered ∧
      o1.service = o2.service ∧
      scrubLog 0 o1.log = scrubLog 0 o2.log ∧
      (∀ e ∈ o1.log, e.2 ≠ "threads.create" → e.1 = mc) ∧
      (∀ e ∈ o1.log, e.2 = "threads.create" → e.1 = c1) := by
  rw [ask_assistant_eqn] at h1 h2
  cases hw : wait_on_run mc env.statusAt fuel
      ⟨s.nextRunId, s.nextThreadId, a, env.initStatus⟩ 0 0 with
  | none => rw [hw] at h1; exact absurd h1 (by simp)
  | some out =>
    obtain ⟨r, k2, sl2, wlg⟩ := out
    rw [hw] at h1 h2
    simp only [Option.some.injEq] at h1 h2
    subst h1
    subst h2
    obtain ⟨_, _, _, hlg⟩ := wait_some mc env.statusAt fuel _ 0 0 _ _ _ _ hw
    refine ⟨rfl, rfl, rfl, by simp [scrubLog], ?_, ?_⟩
    · intro e he hne
      simp only [List.mem_cons, List.mem_append, List.mem_singleton,
        List.not_mem_nil, or_false] at he
      rcases he with he | he | he | he | he
      · exfalso
        apply hne
        rw [he]
      · rw [he]
      · rw [he]
      · rw [hlg] at he
        rw [List.eq_of_mem_replicate he]
      · rw [he]
    · intro e he hyes
      simp only [List.mem_cons, List.mem_append, List.mem_singleton,
        List.not_mem_nil, or_false] at he
      rcases he with he | he | he | he | he
      · rw [he]
      · rw [he] at hyes
        exact absurd (show ("messages.create" : String) = "threads.create" from hyes)
          (by decide)
      · rw [he] at hyes
        exact absurd (show ("runs.create" : String) = "threads.create" from hyes)
          (by decide)
      · rw [hlg] at he
        rw [List.eq_of_mem_replicate he] at hyes
        exact absurd (show ("runs.retrieve" : String) = "threads.create" from hyes)
          (by decide)
      · rw [he] at hyes
        exact absurd (show ("messages.list" : String) = "threads.create" from hyes)
          (by decide)

theorem ask_assistant_module_client_witness :
    ask_assistant 7 1 envDone 3 0 "q" svcEmpty = some outA ∧
    ask_assistant 7 2 envDone 3 0 "q" svcEmpty = some outB ∧
    outA.messages = outB.messages ∧
    scrubLog 0 outA.log = scrubLog 0 outB.log :=
  ⟨rfl, rfl,
   (ask_assistant_module_client 7 1 2 envDone 3 0 "q" svcEmpty outA outB rfl rfl).1,
   (ask_assistant_module_client 7 1 2 envDone 3 0 "q" svcEmpty outA outB rfl rfl).2.2.2.1⟩

theorem render_lines_all : ∀ msgs : List Message,
    (∀ m ∈ msgs, m.content ≠ []) →
    render_lines msgs
      = some (msgs.map (fun m => m.role ++ ": " ++ m.content.headD "")) := by
  intro msgs
  induction msgs with
  | nil => intro _; rfl
  | cons m ms ih =>
    intro h
    have hm : m.content ≠ [] := h m (by simp)
    cases hc : m.content with
    | nil => exact absurd hc hm
    | cons t ts =>
      simp only [render_lines, render_line, hc, List.map_cons]
      rw [ih (fun m2 hm2 => h m2 (by simp [hm2]))]
      simp [List.headD]

theorem render_lines_none : ∀ (msgs : List Message) (m : Message),
    m ∈ msgs → m.content = [] → render_lines msgs = none := by
  intro msgs
  induction msgs with
  | nil => intro m hm _; simp at hm
  | cons m2 ms ih =>
    intro m hm hc
    rcases List.mem_cons.mp hm with he | he
    · subst he
      simp [render_lines, render_line, hc]
    · simp only [render_lines]
      rw [ih m he hc]
      cases render_line m2 <;> rfl

/-- C10: the presenter is partial: on a transcript whose messages all have
non-empty content it prints the role and first text segment of each
message, but a single message with an empty content sequence makes
rendering raise (no skipping, no placeholder) — and the driver can produce
such a transcript, as witnessed by a run whose job appends an
empty-content assistant message. -/
theorem pretty_print_unguarded :
    (∀ msgs : List Message, (∀ m ∈ msgs, m.content ≠ []) →
      pretty_print msgs = some ("# Messages"
        :: msgs.map (fun m => m.role ++ ": " ++ m.content.headD "") ++ [""])) ∧
    (∀ (msgs : List Message) (m : Message), m ∈ msgs → m.content = [] →
      pretty_print msgs = none) ∧
    (ask_assistant 0 0 envEmptyContent 3 0 "q" svcEmpty).map AskOut.rendered
      = some none := by
  refine ⟨?_, ?_, rfl⟩
  · intro msgs h
    unfold pretty_print
    rw [render_lines_all msgs h]
  · intro msgs m hm hc
    unfold pretty_print
    rw [render_lines_none msgs m hm hc]

theorem pretty_print_unguarded_witness :
    pretty_print [⟨"user", ["q"], 0⟩, ⟨"assistant", ["ans"], 1⟩]
      = some ["# Messages", "user: q", "assistant: ans", ""] ∧
    pretty_print [⟨"user", ["q"], 0⟩, ⟨"assistant", [], 1⟩] = none :=
  ⟨(pretty_print_unguarded.1 [⟨"user", ["q"], 0⟩, ⟨"assistant", ["ans"], 1⟩]
      (by decide)).trans rfl,
   pretty_print_unguarded.2.1 [⟨"user", ["q"], 0⟩, ⟨"assistant", [], 1⟩]
     ⟨"assistant", [], 1⟩ (by decide) rfl⟩

/-- C3: for every HTTP 200 response whose body is the serialization of a
JSON value, `get_drug_info` returns that value unchanged (structural
round-trip) and issues exactly one GET whose URL carries the query
parameters `search=indications_and_usage:<indication>`, `limit=<n>` and
`api_key=<key>`. -/
theorem get_drug_info_ok_roundtrip (http : String → HttpResponse)
    (env : String → Option String) (indication key : String) (limit : Nat) (j : Json)
    (hkey : env "OPENFDA_API_KEY" = some key)
    (hstatus : (http (request_url env indication limit)).status_code = 200)
    (hbody : (http (request_url env indication limit)).text = dumpJson j) :
    get_drug_info http env indication limit
      = ⟨some j, [request_url env indication limit]⟩ ∧
    request_url env indication limit
      = "https://api.fda.gov/drug/label.json?search=indications_and_usage:"
        ++ indication ++ "&limit=" ++ toString limit ++ "&api_key=" ++ key := by
  constructor
  · unfold get_drug_info
    dsimp only
    rw [if_pos hstatus, hbody, jsonParse_dumpJson]
  · unfold request_url
    rw [hkey]
    show "https://api.fda.gov/drug/label.json" ++ "?search="
        ++ ("indications_and_usage:" ++ indication) ++ "&limit="
        ++ toString limit ++ "&api_key=" ++ key = _
    rw [show ("https://api.fda.gov/drug/label.json?search=indications_and_usage:"
        : String) = "https://api.fda.gov/drug/label.json" ++ "?search="
        ++ "indications_and_usage:" from rfl]
    simp only [strAppendAssoc]

theorem get_drug_info_ok_roundtrip_witness :
    get_drug_info httpOk envKeys "prostatitis" 10
      = ⟨some (Json.arr .nil), [request_url envKeys "prostatitis" 10]⟩ ∧
    request_url envKeys "prostatitis" 10
      = "https://api.fda.gov/drug/label.json?search=indications_and_usage:"
        ++ "prostatitis" ++ "&limit=" ++ toString 10 ++ "&api_key=" ++ "k" :=
  get_drug_info_ok_roundtrip httpOk envKeys "prostatitis" "k" 10
    (Json.arr .nil) rfl rfl rfl

/-- C4 (amended): on every non-200 response `get_drug_info` neither raises
nor retries: it issues exactly one GET and returns, through the same
channel as success data, the plain string `"Error: <status> - <body>"`,
which carries the status code verbatim and the raw response body.  Being
an ordinary string, this error value is distinguishable from a success
value only when no 200 response's JSON body is that same string (see the
counterexample). -/
theorem get_drug_info_error_value (http : String → HttpResponse)
    (env : String → Option String) (indication : String) (limit : Nat)
    (hstatus : (http (request_url env indication limit)).status_code ≠ 200) :
    get_drug_info http env indication limit
      = ⟨some (.str ("Error: "
            ++ toString (http (request_url env indication limit)).status_code
            ++ " - " ++ (http (request_url env indication limit)).text)),
         [request_url env indication limit]⟩ := by
  unfold get_drug_info
  dsimp only
  rw [if_neg hstatus]

/-- C4 counterexample: a 200 response whose JSON body happens to be the
string `"Error: 404 - x"` produces exactly the same return value as a 404
response with body `"x"` — the error value is a string returned through
the success channel, hence not distinguishable from every success
value. -/
theorem get_drug_info_error_indistinguishable :
    (get_drug_info httpOkErrString envKeys "i" 10).result
        = some (.str "Error: 404 - x") ∧
    (get_drug_info httpNotFound envKeys "i" 10).result
        = some (.str "Error: 404 - x") :=
  ⟨rfl, rfl⟩

theorem get_drug_info_error_value_witness :
    get_drug_info httpNotFound envKeys "i" 10
      = ⟨some (.str ("Error: " ++ toString (404 : Nat) ++ " - " ++ "x")),
         [request_url envKeys "i" 10]⟩ :=
  get_drug_info_error_value httpNotFound envKeys "i" 10 (by decide)

theorem make_assistant_eqn (http : String → HttpResponse)
    (env : String → Option String) (indication : String)
    (fs : String → Option String) (svc : AsstService) (results : Json)
    (hres : (get_drug_info http env indication 10).result = some results) :
    make_assistant http env indication fs svc = some
      ⟨⟨svc.nextAssistantId, "Clinical Data Assistant medium article",
        "Answer only using the file(s) provided.", "gpt-4-1106-preview",
        ["retrieval", "code_interpreter"], [svc.nextFileId]⟩,
       fsWrite fs "data/dataset.json" (dumpJson results),
       ⟨svc.nextAssistantId + 1,
        (svc.nextAssistantId,
          ⟨svc.nextAssistantId, "Clinical Data Assistant medium article",
           "Answer only using the file(s) provided.", "gpt-4-1106-preview",
           ["retrieval", "code_interpreter"], [svc.nextFileId]⟩) :: svc.assistants,
        svc.nextFileId + 1,
        (svc.nextFileId, dumpJson results) :: svc.files⟩,
       ["assistants.create", "files.create", "assistants.update"]⟩ := by
  unfold make_assistant assistants_create files_create assistants_update
  dsimp only
  rw [hres]
  dsimp only
  rw [show fsWrite fs "data/dataset.json" (dumpJson results) "data/dataset.json"
      = some (dumpJson results) from by simp [fsWrite]]
  dsimp only
  simp only [lookupAssistant, setAssistant, eq_self_iff_true, if_true]

/-- C6: packaging always leaves exactly one artifact, at the fixed path
`data/dataset.json` — the path now holds the serialization of the fetched
structure (overwriting any prior content) and every other path is
untouched — and the artifact's content deserializes back to the very
structure that was passed in (serialize/deserialize round trip). -/
theorem make_assistant_artifact_roundtrip (http : String → HttpResponse)
    (env : String → Option String) (indication : String)
    (fs : String → Option String) (svc : AsstService) (results : Json)
    (hres : (get_drug_info http env indication 10).result = some results)
    (o : MakeOut) (h : make_assistant http env indication fs svc = some o) :
    o.fs "data/dataset.json" = some (dumpJson results) ∧
    (∀ p, p ≠ "data/dataset.json" → o.fs p = fs p) ∧
    jsonParse (dumpJson results) = some results := by
  rw [make_assistant_eqn http env indication fs svc results hres] at h
  simp only [Option.some.injEq] at h
  subst h
  refine ⟨by simp [fsWrite], ?_, jsonParse_dumpJson results⟩
  intro p hp
  simp [fsWrite, hp]

theorem make_assistant_artifact_roundtrip_witness :
    (get_drug_info httpOk envKeys "prostatitis" 10).result
        = some (Json.arr .nil) ∧
    make_assistant httpOk envKeys "prostatitis" fsEmpty asvcEmpty
        = some mkOut0 ∧
    mkOut0.fs "data/dataset.json" = some (dumpJson (Json.arr .nil)) ∧
    jsonParse (dumpJson (Json.arr .nil)) = some (Json.arr .nil) :=
  ⟨rfl, rfl,
   (make_assistant_artifact_roundtrip httpOk envKeys "prostatitis" fsEmpty
     asvcEmpty (Json.arr .nil) rfl mkOut0 rfl).1,
   (make_assistant_artifact_roundtrip httpOk envKeys "prostatitis" fsEmpty
     asvcEmpty (Json.arr .nil) rfl mkOut0 rfl).2.2⟩

/-- C7: on a non-200 search response the pipeline does not crash at the
fetch step — `make_assistant` still runs to completion — and the error
string propagates silently into the Knowledge Packager, which serializes
it to the artifact file as if it were valid data. -/
theorem make_assistant_error_packaged (http : String → HttpResponse)
    (env : String → Option String) (indication : String)
    (fs : String → Option String) (svc : AsstService)
    (hstatus : (http (request_url env indication 10)).status_code ≠ 200) :
    (make_assistant http env indication fs svc).isSome = true ∧
    artifactAt (make_assistant http env indication fs svc)
      = some (dumpJson (.str ("Error: "
          ++ toString (http (request_url env indication 10)).status_code
          ++ " - " ++ (http (request_url env indication 10)).text))) := by
  have hres : (get_drug_info http env indication 10).result
      = some (.str ("Error: "
          ++ toString (http (request_url env indication 10)).status_code
          ++ " - " ++ (http (request_url env indication 10)).text)) := by
    unfold get_drug_info
    dsimp only
    rw [if_neg hstatus]
  rw [make_assistant_eqn http env indication fs svc _ hres]
  constructor
  · rfl
  · simp [artifactAt, fsWrite]

theorem make_assistant_error_packaged_witness :
    (make_assistant httpNotFound envKeys "i" fsEmpty asvcEmpty).isSome = true ∧
    artifactAt (make_assistant httpNotFound envKeys "i" fsEmpty asvcEmpty)
      = some (dumpJson (.str ("Error: " ++ toString (404 : Nat)
          ++ " - " ++ "x"))) :=
  make_assistant_error_packaged httpNotFound envKeys "i" fsEmpty asvcEmpty
    (by decide)

/-- C8: every invocation provisions a brand-new remote assistant — its id
is fresh, never one already in the registry — configured with the fixed
instruction and fixed model identifier, then updated to declare exactly the
two capabilities (retrieval, code execution) and to attach exactly the
uploaded artifact's remote file identifier; the operation log is one
unconditional create, one upload, one update — no lookup of a previously
provisioned assistant. -/
theorem make_assistant_fresh_provision (http : String → HttpResponse)
    (env : String → Option String) (indication : String)
    (fs : String → Option String) (svc : AsstService) (o : MakeOut)
    (hwf : ∀ p ∈ svc.assistants, p.1 < svc.nextAssistantId)
    (h : make_assistant http env indication fs svc = some o) :
    o.assistant.id = svc.nextAssistantId ∧
    (∀ p ∈ svc.assistants, p.1 ≠ o.assistant.id) ∧
    o.assistant.instructions = "Answer only using the file(s) provided." ∧
    o.assistant.model = "gpt-4-1106-preview" ∧
    o.assistant.name = "Clinical Data Assistant medium article" ∧
    o.assistant.tools = ["retrieval", "code_interpreter"] ∧
    o.assistant.file_ids = [svc.nextFileId] ∧
    (∃ content, o.fs "data/dataset.json" = some content ∧
      (svc.nextFileId, content) ∈ o.svc.files) ∧
    o.svc.nextAssistantId = svc.nextAssistantId + 1 ∧
    o.oplog = ["assistants.create", "files.create", "assistants.update"] := by
  cases hres : (get_drug_info http env indication 10).result with
  | none =>
    exfalso
    unfold make_assistant at h
    dsimp only at h
    rw [hres] at h
    simp at h
  | some results =>
    rw [make_assistant_eqn http env indication fs svc results hres] at h
    simp only [Option.some.injEq] at h
    subst h
    refine ⟨rfl, ?_, rfl, rfl, rfl, rfl, rfl, ?_, rfl, rfl⟩
    · intro p hp
      show p.1 ≠ svc.nextAssistantId
      have := hwf p hp
      omega
    · exact ⟨dumpJson results, by simp [fsWrite], by simp⟩

theorem make_assistant_fresh_provision_witness :
    make_assistant httpOk envKeys "prostatitis" fsEmpty asvcEmpty
        = some mkOut0 ∧
    mkOut0.assistant.id = 0 ∧
    mkOut0.assistant.instructions
        = "Answer only using the file(s) provided." ∧
    mkOut0.assistant.model = "gpt-4-1106-preview" ∧
    mkOut0.assistant.tools = ["retrieval", "code_interpreter"] ∧
    mkOut0.assistant.file_ids = [0] ∧
    mkOut0.oplog = ["assistants.create", "files.create", "assistants.update"] :=
  ⟨rfl,
   (make_assistant_fresh_provision httpOk envKeys "prostatitis" fsEmpty
     asvcEmpty mkOut0 (by simp [asvcEmpty]) rfl).1,
   (make_assistant_fresh_provision httpOk envKeys "prostatitis" fsEmpty
     asvcEmpty mkOut0 (by simp [asvcEmpty]) rfl).2.2.1,
   (make_assistant_fresh_provision httpOk envKeys "prostatitis" fsEmpty
     asvcEmpty mkOut0 (by simp [asvcEmpty]) rfl).2.2.2.1,
   (make_assistant_fresh_provision httpOk envKeys "prostatitis" fsEmpty
     asvcEmpty mkOut0 (by simp [asvcEmpty]) rfl).2.2.2.2.2.1,
   (make_assistant_fresh_provision httpOk envKeys "prostatitis" fsEmpty
     asvcEmpty mkOut0 (by simp [asvcEmpty]) rfl).2.2.2.2.2.2.1,
   (make_assistant_fresh_provision httpOk envKeys "prostatitis" fsEmpty
     asvcEmpty mkOut0 (by simp [asvcEmpty]) rfl).2.2.2.2.2.2.2.2.2⟩
